import Mathlib

/-!
Shallow embedding of the adaptive context-depth controller of DTopAgent
(src/control/process.py, together with the record shape produced by
src/control/decision.py).  Python strings are Lean strings, records are a
fixed structure whose `k` field may be absent (`none`), hold the Python
`None`, a string, or an opaque non-string value; the Python dict built in
`step3_update_original_k_values` is modelled as the list of bindings in
insertion order, where the last binding for a key wins.
-/

/-- A Python value that can sit in a record's `k` field: a string, the Python
`None`, or an opaque non-string value (`other`). -/
inductive PyVal where
  | str (s : String)
  | pynone
  | other (tag : Nat)
deriving DecidableEq, Repr

/-- One record of the controller's batches, the shape written by
`evaluate_responses` in src/control/decision.py (question, meta, answer,
response, k).  `k = none` models an absent `k` field; `groundTruth` stands in
for any further field carried through unchanged. -/
structure Record where
  question : String
  k : Option PyVal
  response : String
  meta : String
  answer : String
  groundTruth : String
deriving DecidableEq, Repr

/-- `headMatches pat s` holds when `pat` is an initial run of `s`. -/
def headMatches : List Char → List Char → Bool
  | [], _ => true
  | _ :: _, [] => false
  | p :: ps, c :: cs => p == c && headMatches ps cs

/-- Occurrence of `pat` anywhere in `s`: the Python substring test `pat in s`. -/
def containsAux (pat : List Char) : List Char → Bool
  | [] => headMatches pat []
  | c :: cs => headMatches pat (c :: cs) || containsAux pat cs

/-- The Python substring test `pat in s` on strings. -/
def pyContains (pat s : String) : Bool := containsAux pat.data s.data

/-- ASCII whitespace: the characters the regex class matches in the
responses at hand. -/
def pyIsSpace (c : Char) : Bool :=
  c == ' ' || c == '\t' || c == '\n' || c == '\r' || c == '\x0b' || c == '\x0c'

/-- Numeric value of a run of decimal digits (what Python `int` does to the
captured group). -/
def digitsVal (ds : List Char) : Nat :=
  ds.foldl (fun acc c => 10 * acc + (c.toNat - ('0').toNat)) 0

def scoreLit : String := "Evaluation Score:"

/-- One step of the search for the score pattern at a fixed position: the
literal `Evaluation Score:`, then any run of whitespace, then a maximal
nonempty digit run, whose value is returned. -/
def matchScoreAt (s : List Char) : Option Nat :=
  if headMatches scoreLit.data s then
    let ds := ((s.drop scoreLit.data.length).dropWhile pyIsSpace).takeWhile Char.isDigit
    if ds.isEmpty then none else some (digitsVal ds)
  else none

/-- Leftmost-match scan over all start positions. -/
def searchScore : List Char → Option Nat
  | [] => matchScoreAt []
  | c :: cs =>
    match matchScoreAt (c :: cs) with
    | some n => some n
    | none => searchScore cs

/-- src/control/process.py, `extract_evaluation_score`: the first match of
the score pattern in the text, 0 when there is none. -/
def extract_evaluation_score (response : String) : Nat :=
  (searchScore response.data).getD 0

def score9Lit : String := "Evaluation Score: 9"

def score10Lit : String := "Evaluation Score: 10"

/-- src/control/process.py, `classify_by_score`: the first component collects
the records whose response contains one of the two literal substrings, the
second the rest, both in input order. -/
def classify_by_score : List Record → List Record × List Record
  | [] => ([], [])
  | item :: rest =>
    let p := classify_by_score rest
    if pyContains score9Lit item.response || pyContains score10Lit item.response then
      (item :: p.1, p.2)
    else
      (p.1, item :: p.2)

def adjPlusLit : String := "Context Adjustment: 1"

def adjZeroLit : String := "Context Adjustment: 0"

def adjMinusLit : String := "Context Adjustment: -1"

/-- Python `int` on the digit strings this code applies it to (every call
site guards it to one of the single digits "0" to "4"). -/
def pyIntOfStr (s : String) : Int := Int.ofNat (digitsVal s.data)

/-- The body of the loop of `update_k_values` in src/control/process.py for a
single record.  `item.get("k", "0")` is `item.k.getD (PyVal.str "0")`; a
non-string `k` fails every string comparison, so it falls through unchanged.
The substring tests mirror the Python `in` tests in their order. -/
def update_one (item : Record) : Record :=
  let kv := item.k.getD (PyVal.str ("0"))
  let response := item.response
  let score := extract_evaluation_score response
  match kv with
  | PyVal.str k =>
    if k = "0" then
      if pyContains adjPlusLit response then
        { item with k := some (PyVal.str (toString (pyIntOfStr k + 1))) }
      else if pyContains adjZeroLit response then
        { item with k := some (PyVal.str k) }
      else item
    else if k = "5" ∨ k = "null" then
      if score < 3 then
        { item with k := some (PyVal.str ("0")) }
      else if pyContains adjMinusLit response ∧ 2 < score then
        { item with k := some (PyVal.str (toString ((5 : Int) - 1))) }
      else if pyContains adjPlusLit response ∧ 2 < score then
        { item with k := some (PyVal.str k) }
      else if pyContains adjZeroLit response ∧ 2 < score then
        { item with k := some (PyVal.str k) }
      else item
    else if k = "1" ∨ k = "2" ∨ k = "3" ∨ k = "4" then
      if pyContains adjMinusLit response then
        { item with k := some (PyVal.str (toString (pyIntOfStr k - 1))) }
      else if pyContains adjPlusLit response then
        { item with k := some (PyVal.str (toString (pyIntOfStr k + 1))) }
      else if pyContains adjZeroLit response then
        { item with k := some (PyVal.str k) }
      else item
    else item
  | _ => item

/-- src/control/process.py, `update_k_values`: the loop updates every record
of the list in place and returns the list. -/
def update_k_values (data : List Record) : List Record := data.map update_one

/-- Lookup in a Python dict with string keys, the dict given as its list of
bindings in insertion order: a later binding for the same key overwrites an
earlier one, so the last binding wins. -/
def dictFind (m : List (String × PyVal)) (q : String) : Option PyVal :=
  match m with
  | [] => none
  | (a, b) :: rest =>
    match dictFind rest q with
    | some v => some v
    | none => if a = q then some b else none

/-- src/control/process.py, `update_k_values_from_mapping`: keep, in order,
the records whose question is a key of the mapping, overwriting their `k`
with the mapped value; drop the rest. -/
def update_k_values_from_mapping (original_data : List Record)
    (k_mapping : List (String × PyVal)) : List Record :=
  match original_data with
  | [] => []
  | item :: rest =>
    match dictFind k_mapping item.question with
    | some v => { item with k := some v } :: update_k_values_from_mapping rest k_mapping
    | none => update_k_values_from_mapping rest k_mapping

/-- The dict comprehension in `step3_update_original_k_values`: one binding
per record of the k-values file, keyed by question, valued by the record's
`k` (Python `None` when the field is absent). -/
def build_question_to_k (k_data : List Record) : List (String × PyVal) :=
  k_data.map (fun item => (item.question, item.k.getD PyVal.pynone))

/-- Pure core of src/control/process.py, `step3_update_original_k_values`
(file loading and saving omitted). -/
def step3_update_original_k_values (original_data k_data : List Record) : List Record :=
  update_k_values_from_mapping original_data (build_question_to_k k_data)

/-- The non-`k` fields of a record, used to state frame conditions. -/
def frameOf (r : Record) : String × String × String × String × String :=
  (r.question, r.response, r.meta, r.answer, r.groundTruth)

/-- The adjustment signal the parser reads: which of the three literal
adjustment substrings occurs.  Canonical when at most one of them occurs. -/
def adjSignal (response : String) : Option Int :=
  if pyContains adjMinusLit response then some (-1)
  else if pyContains adjPlusLit response then some 1
  else if pyContains adjZeroLit response then some 0
  else none

/-- The judge response carries at most one of the three adjustment literals. -/
def unambiguousAdj (response : String) : Prop :=
  (pyContains adjMinusLit response).toNat + (pyContains adjPlusLit response).toNat
    + (pyContains adjZeroLit response).toNat ≤ 1

instance (response : String) : Decidable (unambiguousAdj response) :=
  inferInstanceAs (Decidable (_ ≤ 1))

def kDec : String → String
  | "1" => "0"
  | "2" => "1"
  | "3" => "2"
  | "4" => "3"
  | k => k

def kInc : String → String
  | "1" => "2"
  | "2" => "3"
  | "3" => "4"
  | "4" => "5"
  | k => k

/-- Modelled from the spec: the section 4.3 K-transition table, with the
`score < 3` reset of the ceiling states taking precedence (so it also fires
when no adjustment is parseable).  Comparison target for claim C1. -/
def specKTable (k : String) (score : Nat) (adj : Option Int) : String :=
  if k = "0" then
    if adj = some 1 then ("1") else ("0")
  else if k = "5" ∨ k = "null" then
    if score < 3 then ("0")
    else if adj = some (-1) then ("4")
    else k
  else if adj = some (-1) then kDec k
  else if adj = some 1 then kInc k
  else k

/-- Record builder for the concrete test inputs below. -/
def mkRec (q : String) (k : Option PyVal) (resp : String) : Record :=
  { question := q, k := k, response := resp, meta := "m", answer := "a",
    groundTruth := "g" }

/-- A response that classifies as 9-or-10 by substring although its parsed
score is 90. -/
def itemScore90 : Record := mkRec ("q90") (some (PyVal.str ("2"))) ("Evaluation Score: 90")

/-- A ceiling-state record whose response carries no score and no adjustment. -/
def itemNoSignal5 : Record :=
  mkRec ("qa") (some (PyVal.str ("5"))) ("The judge returned prose without the two lines.")

/-- A ceiling-state record holding a stored transport-error text. -/
def itemErr5 : Record :=
  mkRec ("qb") (some (PyVal.str ("5"))) ("Error: API request failed: connection refused")

/-- A mid-state record holding a stored transport-error text. -/
def itemErr3 : Record :=
  mkRec ("qc") (some (PyVal.str ("3"))) ("Error: API request failed: connection refused")

/-- A record whose `k` field is absent while the judge asks for more context. -/
def itemAbsentK : Record := mkRec ("qd") none ("Context Adjustment: 1")

/-- A record whose `k` is a string outside the seven states. -/
def itemStray7 : Record := mkRec ("qe") (some (PyVal.str ("7"))) ("Context Adjustment: 1")

/-- A well-formed judged record at state 2 asking for more context. -/
def itemWitC1 : Record :=
  mkRec ("qf") (some (PyVal.str ("2"))) ("Evaluation Score: 7\nContext Adjustment: 1")


theorem set_k_self (item : Record) (v : Option PyVal) (h : item.k = v) :
    { item with k := v } = item := by
  cases item
  subst h
  rfl

theorem merge_eq (orig : List Record) (m : List (String × PyVal)) :
    update_k_values_from_mapping orig m =
      (orig.filter fun r => (dictFind m r.question).isSome).map
        fun r => { r with k := some ((dictFind m r.question).getD (PyVal.str ("0"))) } := by
  induction orig with
  | nil => rfl
  | cons item rest ih =>
    cases h : dictFind m item.question with
    | none => simp [update_k_values_from_mapping, h, List.filter_cons, ih]
    | some v => simp [update_k_values_from_mapping, h, List.filter_cons, ih]

theorem dictFind_build (k_data : List Record) (q : String) :
    dictFind (build_question_to_k k_data) q =
      (k_data.reverse.find? fun i => i.question == q).map fun i => i.k.getD PyVal.pynone := by
  induction k_data with
  | nil => rfl
  | cons item rest ih =>
    have hstep : build_question_to_k (item :: rest)
        = (item.question, item.k.getD PyVal.pynone) :: build_question_to_k rest := rfl
    rw [hstep]
    show (match dictFind (build_question_to_k rest) q with
      | some v => some v
      | none => if item.question = q then some (item.k.getD PyVal.pynone) else none) = _
    rw [ih, List.reverse_cons, List.find?_append]
    cases hfound : rest.reverse.find? fun i => i.question == q with
    | some w => simp [hfound]
    | none =>
      by_cases hq : item.question = q
      · simp [hfound, List.find?, hq]
      · have hbeq : (item.question == q) = false := by simp [hq]
        simp [hfound, List.find?, hbeq, hq]

theorem frame_update_one (item : Record) : frameOf (update_one item) = frameOf item := by
  unfold update_one
  dsimp only
  repeat' split
  all_goals rfl

/-- Claim C4: the merge keeps exactly the original records whose question is a
key of the mapping, in place replacing their `k` with the mapped value, and
drops every other original record. -/
theorem merge_keeps_exactly_mapped_questions (orig : List Record) (m : List (String × PyVal)) :
    update_k_values_from_mapping orig m =
      (orig.filter fun r => (dictFind m r.question).isSome).map
        fun r => { r with k := some ((dictFind m r.question).getD (PyVal.str ("0"))) } :=
  merge_eq orig m

/-- Claim C8: both the K-transition engine and the merge leave every field
other than `k` (question, response, meta, answer, groundTruth) unchanged on
each record they emit. -/
theorem updates_preserve_non_k_fields :
    (∀ data : List Record, (update_k_values data).map frameOf = data.map frameOf) ∧
      ∀ (orig : List Record) (m : List (String × PyVal)),
        (update_k_values_from_mapping orig m).map frameOf =
          (orig.filter fun r => (dictFind m r.question).isSome).map frameOf := by
  constructor
  · intro data
    unfold update_k_values
    rw [List.map_map]
    congr 1
    funext item
    exact frame_update_one item
  · intro orig m
    rw [merge_eq, List.map_map]
    congr 1

/-- Claim C9: the merge preserves the relative input order of the retained
records (stated on the non-`k` fields, which the merge never alters). -/
theorem merge_preserves_relative_order (orig : List Record) (m : List (String × PyVal)) :
    List.Sublist ((update_k_values_from_mapping orig m).map frameOf) (orig.map frameOf) := by
  rw [merge_eq, List.map_map]
  have hcomp : (frameOf ∘ fun r : Record =>
      { r with k := some ((dictFind m r.question).getD (PyVal.str ("0"))) }) = frameOf := rfl
  rw [hcomp]
  exact List.Sublist.map frameOf (List.filter_sublist orig)

/-- Claim C10: the question-to-k mapping built in step 3 binds each question
to the `k` of the last record with that question in the k-values input, and
every original record whose question occurs there receives that
last-occurrence value. -/
theorem step3_last_duplicate_wins (orig k_data : List Record) :
    step3_update_original_k_values orig k_data =
      (orig.filter fun r =>
          (k_data.reverse.find? fun i => i.question == r.question).isSome).map
        fun r => { r with k := some (((k_data.reverse.find? fun i => i.question == r.question).map
            fun i => i.k.getD PyVal.pynone).getD (PyVal.str ("0"))) } := by
  unfold step3_update_original_k_values
  rw [merge_eq]
  simp only [dictFind_build]
  have hiso : ∀ o : Option Record,
      (o.map fun i => i.k.getD PyVal.pynone).isSome = o.isSome := by
    intro o
    cases o <;> rfl
  simp only [hiso]

theorem searchScore_eq_first_position (l : List Char) :
    searchScore l =
      ((List.range (l.length + 1)).filterMap fun i => matchScoreAt (l.drop i)).head? := by
  induction l with
  | nil => decide
  | cons c cs ih =>
    have hdrop : ((fun i => matchScoreAt ((c :: cs).drop i)) ∘ Nat.succ)
        = fun i => matchScoreAt (cs.drop i) := rfl
    cases h : matchScoreAt (c :: cs) with
    | some n =>
      simp [searchScore, h, List.range_succ_eq_map, List.filterMap_cons, List.filterMap_map, hdrop]
    | none =>
      simp [searchScore, h, List.range_succ_eq_map, List.filterMap_cons, List.filterMap_map,
        hdrop, ih]
      rfl

/-- Claim C6: the extracted score is the value produced at the first (leftmost)
position where the pattern `Evaluation Score:` followed by optional whitespace
and a digit run matches, and 0 when no position matches; later occurrences are
ignored.  The function is pure by construction. -/
theorem extract_score_first_match_wins (s : String) :
    extract_evaluation_score s =
      (((List.range (s.data.length + 1)).filterMap fun i => matchScoreAt (s.data.drop i)).head?).getD 0 := by
  unfold extract_evaluation_score
  rw [searchScore_eq_first_position]

theorem searchScore_some_position (l : List Char) (n : Nat) (h : searchScore l = some n) :
    ∃ i, i < l.length ∧ matchScoreAt (l.drop i) = some n := by
  induction l with
  | nil =>
    exfalso
    have hnil : searchScore ([] : List Char) = none := by decide
    rw [hnil] at h
    exact Option.noConfusion h
  | cons c cs ih =>
    rw [searchScore] at h
    cases hm : matchScoreAt (c :: cs) with
    | some m =>
      rw [hm] at h
      exact ⟨0, Nat.succ_pos _, by simpa [hm] using h⟩
    | none =>
      rw [hm] at h
      obtain ⟨i, hi, hmi⟩ := ih h
      exact ⟨i + 1, Nat.succ_lt_succ hi, hmi⟩

/-- Claim C5 (amended): the parsed score is a natural number, 0 when nothing
matches; it is at most 10 provided every position where the score pattern
matches yields a value of at most 10 — the code does not clamp, so a judge
integer above 10 propagates unchanged. -/
theorem extract_score_bounded_when_matches_bounded (s : String)
    (h : ∀ i, i < s.data.length → (matchScoreAt (s.data.drop i)).getD 0 ≤ 10) :
    extract_evaluation_score s ≤ 10 := by
  unfold extract_evaluation_score
  cases hs : searchScore s.data with
  | none => simp
  | some n =>
    obtain ⟨i, hi, hm⟩ := searchScore_some_position _ _ hs
    have hb := h i hi
    rw [hm] at hb
    simpa using hb

/-- Claim C5, counterexample: a judge text reporting 15 parses to 15, outside
the claimed range 0 to 10. -/
theorem extract_score_exceeds_ten : 10 < extract_evaluation_score ("Evaluation Score: 15") := by
  decide

/-- Claim C5, witness for the amended bound at a concrete in-range response. -/
theorem extract_score_bounded_witness : extract_evaluation_score ("Evaluation Score: 9") ≤ 10 :=
  extract_score_bounded_when_matches_bounded ("Evaluation Score: 9") (by decide)

/-- Claim C2 (code bug): the classifier matches the literal substrings, so a
record whose parsed score is 90 — neither 9 nor 10 — still lands in the
resolved collection. -/
theorem classify_substring_bug_at_score_90 :
    classify_by_score [itemScore90] = ([itemScore90], []) ∧
      extract_evaluation_score itemScore90.response = 90 := by
  constructor
  · decide
  · decide

theorem adj_signal_cases (r : String) (h : unambiguousAdj r) :
    (adjSignal r = none ∧ pyContains adjMinusLit r = false ∧ pyContains adjPlusLit r = false
        ∧ pyContains adjZeroLit r = false) ∨
      (adjSignal r = some (-1) ∧ pyContains adjMinusLit r = true ∧ pyContains adjPlusLit r = false
        ∧ pyContains adjZeroLit r = false) ∨
      (adjSignal r = some 1 ∧ pyContains adjMinusLit r = false ∧ pyContains adjPlusLit r = true
        ∧ pyContains adjZeroLit r = false) ∨
      (adjSignal r = some 0 ∧ pyContains adjMinusLit r = false ∧ pyContains adjPlusLit r = false
        ∧ pyContains adjZeroLit r = true) := by
  unfold unambiguousAdj at h
  unfold adjSignal
  cases hm : pyContains adjMinusLit r <;> cases hp : pyContains adjPlusLit r <;>
    cases hz : pyContains adjZeroLit r <;> simp [hm, hp, hz] at h ⊢

theorem update_one_table (item : Record) (s : String)
    (hk : item.k = some (PyVal.str s))
    (hs : s = "0" ∨ s = "1" ∨ s = "2" ∨ s = "3" ∨ s = "4" ∨ s = "5" ∨ s = "null")
    (hadj : unambiguousAdj item.response) :
    update_one item =
      { item with k := some (PyVal.str (specKTable s (extract_evaluation_score item.response)
          (adjSignal item.response))) } := by
  have hset : ∀ v : Option PyVal, item.k = v → { item with k := v } = item := by
    intro v hv
    cases item
    subst hv
    rfl
  unfold update_one
  rw [hk]
  rcases adj_signal_cases item.response hadj with ⟨ha, hm, hp, hz⟩ | ⟨ha, hm, hp, hz⟩ |
      ⟨ha, hm, hp, hz⟩ | ⟨ha, hm, hp, hz⟩ <;>
    rcases hs with rfl | rfl | rfl | rfl | rfl | rfl | rfl <;>
      rcases Nat.lt_or_ge (extract_evaluation_score item.response) 3 with hsc | hsc <;>
        first
          | (have hA : ¬2 < extract_evaluation_score item.response := by omega
             simp [ha, hm, hp, hz, hsc, hA, specKTable, kDec, kInc, hset _ hk] <;> decide)
          | (have hA : 2 < extract_evaluation_score item.response := by omega
             have hB : ¬extract_evaluation_score item.response < 3 := by omega
             simp [ha, hm, hp, hz, hA, hB, specKTable, kDec, kInc, hset _ hk] <;> decide)

/-- Claim C1 (amended): for any record in one of the seven states whose judge
response carries at most one adjustment literal, `update_k_values` rewrites its
`k` exactly per the section 4.3 table — floor at 0, ceiling at 5/null, reset of
5/null to 0 on score below 3 (the reset also fires when no adjustment is
parseable, which is the one departure from the claim as stated), adjustment
-1/0/+1 as k-1/k/k+1 in states 1 to 4, and no change on a missing adjustment in
every other state — while the surrounding records of the batch are processed by
the same per-record rule. -/
theorem update_k_matches_spec_table (l1 l2 : List Record) (item : Record) (s : String)
    (hk : item.k = some (PyVal.str s))
    (hs : s = "0" ∨ s = "1" ∨ s = "2" ∨ s = "3" ∨ s = "4" ∨ s = "5" ∨ s = "null")
    (hadj : unambiguousAdj item.response) :
    update_k_values (l1 ++ item :: l2) =
      update_k_values l1 ++
        { item with k := some (PyVal.str (specKTable s (extract_evaluation_score item.response)
            (adjSignal item.response))) } :: update_k_values l2 := by
  unfold update_k_values
  rw [List.map_append, List.map_cons, update_one_table item s hk hs hadj]

/-- Claim C1, witness: state 2 with judge text scoring 7 and asking for more
context moves to state 3, per the table. -/
theorem update_k_matches_spec_table_witness :
    unambiguousAdj itemWitC1.response ∧
      update_k_values [itemWitC1] = [{ itemWitC1 with k := some (PyVal.str ("3")) }] := by
  refine ⟨by decide, ?_⟩
  have h := update_k_matches_spec_table [] [] itemWitC1 ("2") rfl (by simp) (by decide)
  have h2 : specKTable ("2") (extract_evaluation_score itemWitC1.response)
      (adjSignal itemWitC1.response) = "3" := by decide
  rw [h2] at h
  simpa using h

/-- Claim C1, counterexample to its final clause as stated: a ceiling-state
record with no parseable adjustment is reset to 0 by the low-score rule, not
left unchanged. -/
theorem no_signal_still_resets_ceiling :
    adjSignal itemNoSignal5.response = none ∧
      update_k_values [itemNoSignal5] ≠ [itemNoSignal5] := by
  decide

/-- Claim C3 (amended): a record holding a stored evaluation-failure text with
no parseable score or adjustment (and no 9-or-10 literal) is classified
needs-reflection; the engine leaves `k` unchanged in states 0 to 4, but resets
the ceiling states 5/null to 0, because the unparseable score defaults to 0,
which is below 3. -/
theorem failed_evaluation_needs_reflection_and_k_rule (item : Record) (s : String)
    (hk : item.k = some (PyVal.str s))
    (hs : s = "0" ∨ s = "1" ∨ s = "2" ∨ s = "3" ∨ s = "4" ∨ s = "5" ∨ s = "null")
    (hm : pyContains adjMinusLit item.response = false)
    (hp : pyContains adjPlusLit item.response = false)
    (hz : pyContains adjZeroLit item.response = false)
    (hscore : extract_evaluation_score item.response = 0)
    (h9 : pyContains score9Lit item.response = false)
    (h10 : pyContains score10Lit item.response = false) :
    classify_by_score [item] = ([], [item]) ∧
      update_k_values [item] =
        [if s = "5" ∨ s = "null" then { item with k := some (PyVal.str ("0")) } else item] := by
  constructor
  · simp [classify_by_score, h9, h10]
  · have hadj : unambiguousAdj item.response := by
      unfold unambiguousAdj
      simp [hm, hp, hz]
    have ha : adjSignal item.response = none := by
      unfold adjSignal
      simp [hm, hp, hz]
    have h := update_one_table item s hk hs hadj
    rw [hscore, ha] at h
    unfold update_k_values
    rw [List.map_cons, List.map_nil, h]
    rcases hs with rfl | rfl | rfl | rfl | rfl | rfl | rfl <;>
      simp [specKTable, set_k_self item _ hk]

/-- Claim C3, witness: a mid-state record carrying a stored transport-error
text is classified needs-reflection and keeps its `k`. -/
theorem failed_evaluation_witness :
    classify_by_score [itemErr3] = ([], [itemErr3]) ∧
      update_k_values [itemErr3] = [itemErr3] := by
  have h := failed_evaluation_needs_reflection_and_k_rule itemErr3 ("3") rfl (by simp)
    (by decide) (by decide) (by decide) (by decide) (by decide) (by decide)
  simpa using h

/-- Claim C3, counterexample as stated: for a ceiling-state record the stored
error text does not leave `k` unchanged — the engine resets it to 0. -/
theorem failed_evaluation_resets_ceiling :
    update_k_values [itemErr5] ≠ [itemErr5] ∧
      update_k_values [itemErr5] = [{ itemErr5 with k := some (PyVal.str ("0")) }] := by
  decide

/-- Claim C7 (amended): the engine is total, and a record whose `k` field is
present but not one of the seven state strings — a string outside
"0"-"5"/"null" or a non-string value — passes through with `k` unchanged; an
absent `k` field, by contrast, is defaulted to "0" and processed as state 0
(see the counterexample), which is the one departure from the claim as
stated. -/
theorem unknown_k_passes_through (l1 l2 : List Record) (item : Record) (v : PyVal)
    (hk : item.k = some v)
    (hv : ∀ s, v = PyVal.str s →
      ¬(s = "0" ∨ s = "1" ∨ s = "2" ∨ s = "3" ∨ s = "4" ∨ s = "5" ∨ s = "null")) :
    update_k_values (l1 ++ item :: l2) = update_k_values l1 ++ item :: update_k_values l2 := by
  have hone : update_one item = item := by
    unfold update_one
    rw [hk]
    cases v with
    | str s =>
      have hns := hv s rfl
      push_neg at hns
      obtain ⟨h0, h1, h2, h3, h4, h5, hn⟩ := hns
      simp [h0, h1, h2, h3, h4, h5, hn]
    | pynone => rfl
    | other t => rfl
  unfold update_k_values
  rw [List.map_append, List.map_cons, hone]

/-- Claim C7, witness: a record whose `k` is the out-of-range string "7" is
passed through unchanged even though the judge asks for more context. -/
theorem unknown_k_passes_through_witness :
    update_k_values [itemStray7] = [itemStray7] := by
  have h := unknown_k_passes_through [] [] itemStray7 (PyVal.str ("7")) rfl
    (by
      intro s hsv
      injection hsv with h2
      subst h2
      decide)
  simpa using h

/-- Claim C7, counterexample as stated: a record with an absent `k` field is
defaulted to state 0 and moved to "1", not passed through unchanged. -/
theorem absent_k_not_passed_through :
    update_k_values [itemAbsentK] ≠ [itemAbsentK] ∧
      update_k_values [itemAbsentK] = [{ itemAbsentK with k := some (PyVal.str ("1")) }] := by
  decide
